import Mathlib

/-!
Verification development for the mesh warp engine of `video_warper.py`.

The engine's numeric values are Python floats; here they are embedded as
rationals (`ℚ`), reading the float arithmetic as exact real arithmetic.
Python string conversions (`float(tok)`, `int(tok)`) are abstracted by a
`Token` record carrying the conversion results (`none` = the conversion
raises `ValueError`).  A mesh-file line, after the loader's stripping of
blank and `#`-comment lines, is abstracted by `FileLine`: `asInt` is the
result of `int(line)` applied to the whole stripped line, `toks` is
`line.split()`.  Exceptions are embedded with `Except`.
-/

namespace VideoWarper

/-- One mesh vertex, mirroring the per-node dict
`{'x':…,'y':…,'u':…,'v':…,'i':…,'valid':…}` of the source. -/
structure MeshNode where
  x : ℚ
  y : ℚ
  u : ℚ
  v : ℚ
  i : ℚ
  valid : Bool
  deriving Repr, DecidableEq

/-- The placeholder invalid node appended by the loader for a short node
line: `{'x': 0, 'y': 0, 'u': 0, 'v': 0, 'i': 0, 'valid': False}`. -/
def zeroNode : MeshNode :=
  { x := 0, y := 0, u := 0, v := 0, i := 0, valid := false }

/-- A whitespace-separated field of a mesh-file line.  `asFloat` is the
result of Python `float(tok)` (`none` when it raises), `asInt` the result
of `int(tok)`. -/
structure Token where
  asFloat : Option ℚ
  asInt : Option ℤ
  deriving Repr, DecidableEq

/-- A stripped, non-blank, non-comment line of the mesh file.  `asInt` is
`int(line)` on the whole line, `toks` is `line.split()`. -/
structure FileLine where
  asInt : Option ℤ
  toks : List Token
  deriving Repr, DecidableEq

/-- The engine state the loader touches: `self.rows`, `self.cols`,
`self.width`, `self.height` (video dimensions as read by OpenCV). -/
structure Engine where
  rows : ℤ
  cols : ℤ
  width : ℤ
  height : ℤ
  deriving Repr, DecidableEq

/-- `MeshWarper.create_identity_mesh`.  The source iterates
`for r in range(self.rows): for c in range(self.cols)` and computes
`x = (c / (cols-1)) * 2.0 * aspect - aspect`, `y = (r / (rows-1)) * 2.0 - 1.0`,
`u = c / (cols-1)`, `v = 1.0 - (r / (rows-1))`, `i = 1.0`, `valid = True`,
with `aspect = width / height if height > 0 else 16/9`.
When the loop body runs (`rows ≥ 1` and `cols ≥ 1`) and `cols - 1 = 0` or
`rows - 1 = 0`, the first iteration's division raises `ZeroDivisionError`;
that is the `Except.error` case. -/
def create_identity_mesh (rows cols width height : ℤ) :
    Except Unit (List MeshNode) :=
  let aspect : ℚ := if 0 < height then (width : ℚ) / (height : ℚ) else 16 / 9
  if 1 ≤ rows ∧ 1 ≤ cols ∧ (cols = 1 ∨ rows = 1) then
    Except.error ()
  else
    Except.ok <| (List.range rows.toNat).flatMap fun (r : ℕ) =>
      (List.range cols.toNat).map fun (c : ℕ) =>
        { x := ((c : ℚ) / ((cols : ℚ) - 1)) * 2 * aspect - aspect
          y := ((r : ℚ) / ((rows : ℚ) - 1)) * 2 - 1
          u := (c : ℚ) / ((cols : ℚ) - 1)
          v := 1 - (r : ℚ) / ((rows : ℚ) - 1)
          i := 1
          valid := true }

/-- `map(float, parts[:5])` followed by 5-tuple unpacking: the first five
fields, provided there are at least five and each converts to a float
(Python raises `ValueError` otherwise, the `none` case). -/
def floats5 (parts : List Token) : Option (ℚ × ℚ × ℚ × ℚ × ℚ) :=
  match parts with
  | p0 :: p1 :: p2 :: p3 :: p4 :: _ =>
    match p0.asFloat, p1.asFloat, p2.asFloat, p3.asFloat, p4.asFloat with
    | some x, some y, some u, some v, some inten => some (x, y, u, v, inten)
    | _, _, _, _, _ => none
  | _ => none

/-- The per-node-line body of `MeshWarper.load_mesh`: with `len(parts) >= 5`
the first five fields are converted (a conversion failure raises, which
aborts the whole load), validity flags are cleared exactly as in the
source, and the node is appended; with fewer than five fields a placeholder
invalid node is appended instead. -/
def parseNodeLine (parts : List Token) : Except Unit MeshNode :=
  if 5 ≤ parts.length then
    match floats5 parts with
    | some (x, y, u, v, inten) =>
      let valid0 := true
      let valid1 := if u < 0 ∨ 1 < u ∨ v < 0 ∨ 1 < v then false else valid0
      let valid2 := if inten < 0 then false else valid1
      let valid3 := if 1 < inten then false else valid2
      Except.ok { x := x, y := y, u := u, v := v, i := inten, valid := valid3 }
    | none => Except.error ()
  else
    Except.ok zeroNode

/-- The loader's node loop over `node_lines[:expected_nodes]`: each line is
parsed with `parseNodeLine`; the first conversion failure aborts the load. -/
def parseNodes : List FileLine → Except Unit (List MeshNode)
  | [] => Except.ok []
  | l :: ls =>
    match parseNodeLine l.toks with
    | Except.ok n =>
      match parseNodes ls with
      | Except.ok ns => Except.ok (n :: ns)
      | Except.error u => Except.error u
    | Except.error _ => Except.error ()

/-- Python list slicing `l[:k]` for an `int` bound `k`: the first `k`
elements when `k ≥ 0`, all but the last `-k` elements when `k < 0`. -/
def pyTake {α : Type} (k : ℤ) (l : List α) : List α :=
  if k < 0 then l.take ((l.length : ℤ) + k).toNat else l.take k.toNat

/-- The `try:` body of `MeshWarper.load_mesh` on the stripped line list:
length check, version line (`int(lines[0])`, a mismatch only warns),
dimensions line (`len != 2` raises; `nx, ny = map(int, …)` raises before
assignment on a bad field), assignment `self.cols = nx; self.rows = ny`,
then the node loop.  `Except.error` carries the engine state at the point
the exception is raised (`self.cols/rows` are already reassigned when the
exception comes from the node loop). -/
def loadMeshCore (e : Engine) (lines : List FileLine) :
    Except Engine (List MeshNode × Engine) :=
  if lines.length < 3 then Except.error e
  else
    match lines with
    | l0 :: l1 :: nodeLines =>
      match l0.asInt with
      | none => Except.error e
      | some _ =>
        if l1.toks.length ≠ 2 then Except.error e
        else
          match l1.toks.map Token.asInt with
          | [some nx, some ny] =>
            let e2 : Engine := { e with cols := nx, rows := ny }
            match parseNodes (pyTake (nx * ny) nodeLines) with
            | Except.ok mesh => Except.ok (mesh, e2)
            | Except.error _ => Except.error e2
          | _ => Except.error e
    | _ => Except.error e

/-- `MeshWarper.load_mesh`.  `none` is a path whose `open` raises
`FileNotFoundError`; `some lines` supplies the stripped lines of a
readable file.  Both `except` handlers return `self.create_identity_mesh()`
with the engine state current at that moment; an exception raised inside
the handler itself (the identity generator's `ZeroDivisionError`) escapes
`load_mesh`, which is the outer `Except.error ()`. -/
def load_mesh (e : Engine) (file : Option (List FileLine)) :
    Except Unit (List MeshNode × Engine) :=
  match file with
  | none =>
    (create_identity_mesh e.rows e.cols e.width e.height).map fun m => (m, e)
  | some lines =>
    match loadMeshCore e lines with
    | Except.ok res => Except.ok res
    | Except.error e2 =>
      (create_identity_mesh e2.rows e2.cols e2.width e2.height).map
        fun m => (m, e2)

/-- `MeshWarper.is_quad_valid`: corner indices in row-major order, a bounds
check against `len(self.mesh)`, then the conjunction of the four corners'
`valid` flags.  `draw_mesh` calls it only with `0 ≤ r ≤ rows-2` and
`0 ≤ c ≤ cols-2`, so the indices are embedded as naturals. -/
def is_quad_valid (cols : ℕ) (mesh : List MeshNode) (r c : ℕ) : Bool :=
  let idx_tl := r * cols + c
  let idx_tr := r * cols + (c + 1)
  let idx_bl := (r + 1) * cols + c
  let idx_br := (r + 1) * cols + (c + 1)
  if mesh.length ≤ idx_tl ∨ mesh.length ≤ idx_tr ∨
      mesh.length ≤ idx_bl ∨ mesh.length ≤ idx_br then
    false
  else
    ((mesh.getD idx_tl zeroNode).valid && (mesh.getD idx_tr zeroNode).valid
      && (mesh.getD idx_bl zeroNode).valid
      && (mesh.getD idx_br zeroNode).valid)

/-- One column iteration of the inner loop of `MeshWarper.draw_mesh`.
State: (finished strips, vertices of the current strip, `strip_started`).
Emitted vertices are identified by their row-major mesh index (the source
emits color `(i,i,i)`, texture coordinate `(u,v)` and position `(x,y)` of
that node).  For `c < cols - 1` with `is_quad_valid` false, the source ends
the active strip (`glEnd` + `glBegin`) only when `strip_started` is set and
then `continue`s, emitting nothing for this column; otherwise the bottom
vertex `r*cols + c` is emitted when in bounds and valid (setting
`strip_started`), then the top vertex `(r+1)*cols + c` when in bounds and
valid (NOT setting `strip_started`, as in the source). -/
def drawRowStep (cols : ℕ) (mesh : List MeshNode) (r : ℕ)
    (st : List (List ℕ) × List ℕ × Bool) (c : ℕ) :
    List (List ℕ) × List ℕ × Bool :=
  let strips := st.1
  let cur := st.2.1
  let started := st.2.2
  if c < cols - 1 ∧ is_quad_valid cols mesh r c = false then
    if started then (strips ++ [cur], [], false) else (strips, cur, started)
  else
    let idx1 := r * cols + c
    let st1 :=
      if idx1 < mesh.length ∧ (mesh.getD idx1 zeroNode).valid = true then
        (cur ++ [idx1], true)
      else (cur, started)
    let idx2 := (r + 1) * cols + c
    let cur2 :=
      if idx2 < mesh.length ∧ (mesh.getD idx2 zeroNode).valid = true then
        st1.1 ++ [idx2]
      else st1.1
    (strips, cur2, st1.2)

/-- One row `r` of `MeshWarper.draw_mesh`: `glBegin` (empty strip,
`strip_started = False`), the column loop, and the final `glEnd` that
closes the last strip. -/
def draw_row (cols : ℕ) (mesh : List MeshNode) (r : ℕ) : List (List ℕ) :=
  let st := (List.range cols).foldl (drawRowStep cols mesh r) ([], [], false)
  st.1 ++ [st.2.1]

/-- `MeshWarper.draw_mesh`: the triangle strips emitted per frame, one row
loop `for r in range(self.rows - 1)`, each strip recorded as the list of
emitted vertex indices in emission order. -/
def draw_mesh (rows cols : ℕ) (mesh : List MeshNode) : List (List ℕ) :=
  (List.range (rows - 1)).flatMap fun r => draw_row cols mesh r

/-- The four corner vertices of quad `(r, c)` in the order the strip
emits them: bottom `c`, top `c`, bottom `c+1`, top `c+1`. -/
def quad_strip_indices (cols r c : ℕ) : List ℕ :=
  [r * cols + c, (r + 1) * cols + c, r * cols + (c + 1),
    (r + 1) * cols + (c + 1)]

/-- `matchesAt pat l`: `pat` coincides with the leading entries of `l`. -/
def matchesAt : List ℕ → List ℕ → Bool
  | [], _ => true
  | _ :: _, [] => false
  | a :: as, b :: bs => a == b && matchesAt as bs

/-- `consecIn pat l`: `pat` occurs as a block of consecutive entries
somewhere in `l`. -/
def consecIn (pat : List ℕ) : List ℕ → Bool
  | [] => matchesAt pat []
  | b :: bs => matchesAt pat (b :: bs) || consecIn pat bs

/-- A quad is actually rendered iff its four corner vertices appear
consecutively inside one emitted `GL_TRIANGLE_STRIP`: a strip
`v0, v1, v2, …` draws triangles `(vk, vk+1, vk+2)`, so the quad's two
triangles exist exactly when its four vertices are consecutive in the
strip (each index is emitted at most once per strip). -/
def quad_drawn (rows cols : ℕ) (mesh : List MeshNode) (r c : ℕ) : Bool :=
  (draw_mesh rows cols mesh).any fun strip =>
    consecIn (quad_strip_indices cols r c) strip

/-- `MeshWarper.apply_barrel_distortion`: invalid nodes are skipped
(`continue`); for a valid node `u_norm = u*2-1`, `v_norm = v*2-1`,
`r = sqrt(u_norm² + v_norm²)`, `factor = 1 + strength * r**2`, and the
node's `x, y` are overwritten with `u_norm * factor`, `v_norm * factor`.
Since `r` enters only as `r**2 = u_norm² + v_norm²`, the factor is embedded
without the square root. -/
def apply_barrel_distortion (strength : ℚ) (mesh : List MeshNode) :
    List MeshNode :=
  mesh.map fun node =>
    if node.valid then
      let u_norm := node.u * 2 - 1
      let v_norm := node.v * 2 - 1
      let factor := 1 + strength * (u_norm ^ 2 + v_norm ^ 2)
      { node with x := u_norm * factor, y := v_norm * factor }
    else
      node

/-- `MeshWarper.apply_pincushion_distortion`: delegates to
`apply_barrel_distortion` with the negated strength. -/
def apply_pincushion_distortion (strength : ℚ) (mesh : List MeshNode) :
    List MeshNode :=
  apply_barrel_distortion (-strength) mesh

/-! Concrete data used by witnesses and counterexamples. -/

/-- A token whose text is a decimal integer literal: both `float` and `int`
conversions succeed. -/
def numTok (n : ℤ) : Token := { asFloat := some (n : ℚ), asInt := some n }

/-- A token that is not numeric: both conversions raise `ValueError`. -/
def badTok : Token := { asFloat := none, asInt := none }

/-- An engine configured with `rows = cols = 10` (the constructor defaults)
over a 1920x1080 video. -/
def engine0 : Engine := { rows := 10, cols := 10, width := 1920, height := 1080 }

/-- A simple all-defaults valid node used by witnesses. -/
def vNode : MeshNode := { x := 0, y := 0, u := 0, v := 0, i := 1, valid := true }

/-- A 3x3 mesh of plain nodes whose only invalid node is index `5`
(row 1, column 2). -/
def mesh9b : List MeshNode :=
  [vNode, vNode, vNode, vNode, vNode, { vNode with valid := false },
    vNode, vNode, vNode]

/-- A fully valid 3x3 mesh of plain nodes. -/
def mesh9good : List MeshNode := List.replicate 9 vNode

/-- The engine state after `fileC5`'s dimensions line has been applied. -/
def engine5 : Engine := { rows := 5, cols := 5, width := 1920, height := 1080 }

/-- A truncated mesh file: version `2`, dimensions `2 2` (so `4` declared
nodes), but a single node line `0 0 0 0 1`. -/
def fileC4 : List FileLine :=
  [ { asInt := some 2, toks := [numTok 2] },
    { asInt := none, toks := [numTok 2, numTok 2] },
    { asInt := none, toks := [numTok 0, numTok 0, numTok 0, numTok 0, numTok 1] } ]

/-- A mesh file with a well-formed header declaring `5 5` followed by a
node line whose first field is not a float. -/
def fileC5 : List FileLine :=
  [ { asInt := some 2, toks := [numTok 2] },
    { asInt := none, toks := [numTok 5, numTok 5] },
    { asInt := none, toks := [badTok, numTok 0, numTok 0, numTok 0, numTok 1] } ]

/-- A mesh file declaring degenerate dimensions `1 1` followed by a node
line whose first field is not a float. -/
def fileC6 : List FileLine :=
  [ { asInt := some 2, toks := [numTok 2] },
    { asInt := none, toks := [numTok 1, numTok 1] },
    { asInt := none, toks := [badTok, numTok 0, numTok 0, numTok 0, numTok 1] } ]

/-! Helper lemmas about row-major generation. -/

/-- Length of a row-major double loop: `n` rows of `m` entries. -/
lemma length_range_flatMap_map {α : Type} (n m : ℕ) (f : ℕ → ℕ → α) :
    ((List.range n).flatMap fun r => (List.range m).map (f r)).length = n * m := by
  induction n with
  | zero => simp
  | succ k ih =>
    rw [List.range_succ, List.flatMap_append]
    simp only [List.length_append, ih, List.flatMap_cons, List.flatMap_nil,
      List.append_nil, List.length_map, List.length_range]
    ring

/-- Entry `(r, c)` of a row-major double loop sits at index `r * m + c`. -/
lemma getElem?_range_flatMap_map {α : Type} (n m : ℕ) (f : ℕ → ℕ → α)
    (r c : ℕ) (hr : r < n) (hc : c < m) :
    ((List.range n).flatMap fun i => (List.range m).map (f i))[r * m + c]? =
      some (f r c) := by
  induction n with
  | zero => omega
  | succ k ih =>
    rw [List.range_succ, List.flatMap_append]
    rcases Nat.lt_or_ge r k with h | h
    · rw [List.getElem?_append_left]
      · exact ih h
      · rw [length_range_flatMap_map]
        have h1 : (r + 1) * m = r * m + m := Nat.succ_mul r m
        have h2 : (r + 1) * m ≤ k * m := Nat.mul_le_mul_right m (by omega)
        omega
    · have hrk : r = k := by omega
      subst hrk
      rw [List.getElem?_append_right]
      · rw [length_range_flatMap_map]
        simp only [List.flatMap_cons, List.flatMap_nil, List.append_nil,
          Nat.add_sub_cancel_left]
        rw [List.getElem?_map, List.getElem?_range hc]
        rfl
      · rw [length_range_flatMap_map]
        omega

/-- The node loop never drops a node: a successful `parseNodes` run returns
one node per input line. -/
lemma parseNodes_length :
    ∀ (ls : List FileLine) (ms : List MeshNode),
      parseNodes ls = Except.ok ms → ms.length = ls.length := by
  intro ls
  induction ls with
  | nil =>
    intro ms hm
    simp only [parseNodes, Except.ok.injEq] at hm
    simp [← hm]
  | cons l ls ih =>
    intro ms hm
    unfold parseNodes at hm
    cases hp : parseNodeLine l.toks with
    | error u => rw [hp] at hm; simp at hm
    | ok n =>
      rw [hp] at hm
      cases hq : parseNodes ls with
      | error u => rw [hq] at hm; simp at hm
      | ok ns =>
        rw [hq] at hm
        simp only [Except.ok.injEq] at hm
        simp [← hm, ih ns hq]

/-- C1: for every `rows ≥ 2` and `cols ≥ 2`, `create_identity_mesh` returns
exactly `rows * cols` nodes in row-major order; the node at grid position
`(r, c)` has `x = (c/(cols-1)) * 2 * aspect - aspect`,
`y = (r/(rows-1)) * 2 - 1`, `u = c/(cols-1)`, `v = 1 - r/(rows-1)`,
`intensity = 1` and `valid = true`, where `aspect = width/height` when the
video height is positive and `16/9` otherwise. -/
theorem C1_identity_mesh (rows cols width height : ℤ)
    (hrows : 2 ≤ rows) (hcols : 2 ≤ cols) :
    ∃ m, create_identity_mesh rows cols width height = Except.ok m ∧
      m.length = rows.toNat * cols.toNat ∧
      ∀ r c : ℕ, r < rows.toNat → c < cols.toNat →
        m[r * cols.toNat + c]? = some
          { x := ((c : ℚ) / ((cols : ℚ) - 1)) * 2 *
                (if 0 < height then (width : ℚ) / (height : ℚ) else 16 / 9) -
                (if 0 < height then (width : ℚ) / (height : ℚ) else 16 / 9)
            y := ((r : ℚ) / ((rows : ℚ) - 1)) * 2 - 1
            u := (c : ℚ) / ((cols : ℚ) - 1)
            v := 1 - (r : ℚ) / ((rows : ℚ) - 1)
            i := 1
            valid := true } := by
  have hg : ¬(1 ≤ rows ∧ 1 ≤ cols ∧ (cols = 1 ∨ rows = 1)) := by
    rintro ⟨-, -, h | h⟩ <;> omega
  refine ⟨(List.range rows.toNat).flatMap fun (r : ℕ) =>
      (List.range cols.toNat).map fun (c : ℕ) =>
        ({ x := ((c : ℚ) / ((cols : ℚ) - 1)) * 2 *
              (if 0 < height then (width : ℚ) / (height : ℚ) else 16 / 9) -
              (if 0 < height then (width : ℚ) / (height : ℚ) else 16 / 9)
           y := ((r : ℚ) / ((rows : ℚ) - 1)) * 2 - 1
           u := (c : ℚ) / ((cols : ℚ) - 1)
           v := 1 - (r : ℚ) / ((rows : ℚ) - 1)
           i := 1
           valid := true } : MeshNode), ?_, ?_, ?_⟩
  · simp only [create_identity_mesh]
    rw [if_neg hg]
  · exact length_range_flatMap_map ..
  · intro r c hr hc
    exact getElem?_range_flatMap_map _ _ _ _ _ hr hc

/-- Witness for C1 at the smallest grid `2 x 2` over a `16 : 9` video. -/
theorem C1_identity_mesh_witness :
    (2 : ℤ) ≤ 2 ∧
      ∃ m, create_identity_mesh 2 2 16 9 = Except.ok m ∧
        m.length = (2 : ℤ).toNat * (2 : ℤ).toNat ∧
        ∀ r c : ℕ, r < (2 : ℤ).toNat → c < (2 : ℤ).toNat →
          m[r * (2 : ℤ).toNat + c]? = some
            { x := ((c : ℚ) / (((2 : ℤ) : ℚ) - 1)) * 2 *
                  (if (0 : ℤ) < 9 then ((16 : ℤ) : ℚ) / ((9 : ℤ) : ℚ) else 16 / 9) -
                  (if (0 : ℤ) < 9 then ((16 : ℤ) : ℚ) / ((9 : ℤ) : ℚ) else 16 / 9)
              y := ((r : ℚ) / (((2 : ℤ) : ℚ) - 1)) * 2 - 1
              u := (c : ℚ) / (((2 : ℤ) : ℚ) - 1)
              v := 1 - (r : ℚ) / (((2 : ℤ) : ℚ) - 1)
              i := 1
              valid := true } :=
  ⟨by decide, C1_identity_mesh 2 2 16 9 (by decide) (by decide)⟩

/-- A successful five-field conversion needs at least five fields. -/
lemma floats5_length (parts : List Token) (t : ℚ × ℚ × ℚ × ℚ × ℚ)
    (h : floats5 parts = some t) : 5 ≤ parts.length := by
  rcases parts with - | ⟨p0, - | ⟨p1, - | ⟨p2, - | ⟨p3, - | ⟨p4, rest⟩⟩⟩⟩⟩
  · exact Option.noConfusion h
  · exact Option.noConfusion h
  · exact Option.noConfusion h
  · exact Option.noConfusion h
  · exact Option.noConfusion h
  · simp only [List.length_cons]
    omega

/-- C2: a node line with at least five fields, all five first fields
converting to floats, is loaded as a node whose `valid` flag is set iff
`0 ≤ u ≤ 1`, `0 ≤ v ≤ 1` and `0 ≤ intensity ≤ 1`; the `x` and `y` fields
play no role in the decision, and nodes (valid or not) are never dropped:
a successful node loop returns exactly one node per line. -/
theorem C2_node_validation (parts : List Token) (x y u v inten : ℚ)
    (h : floats5 parts = some (x, y, u, v, inten)) :
    parseNodeLine parts = Except.ok
      { x := x, y := y, u := u, v := v, i := inten,
        valid := decide (0 ≤ u ∧ u ≤ 1 ∧ 0 ≤ v ∧ v ≤ 1 ∧
          0 ≤ inten ∧ inten ≤ 1) } ∧
    ∀ (ls : List FileLine) (ms : List MeshNode),
      parseNodes ls = Except.ok ms → ms.length = ls.length := by
  refine ⟨?_, parseNodes_length⟩
  unfold parseNodeLine
  rw [if_pos (floats5_length _ _ h), h]
  simp only [Except.ok.injEq, MeshNode.mk.injEq, true_and]
  split_ifs with h1 h2 h3
  · rw [eq_comm, decide_eq_false_iff_not]
    rintro ⟨-, -, -, -, -, h6⟩
    exact absurd h6 (not_le.mpr h1)
  · rw [eq_comm, decide_eq_false_iff_not]
    rintro ⟨-, -, -, -, h5, -⟩
    exact absurd h5 (not_le.mpr h2)
  · rw [eq_comm, decide_eq_false_iff_not]
    rintro ⟨hu0, hu1, hv0, hv1, -, -⟩
    rcases h3 with h | h | h | h <;> linarith
  · push_neg at h1 h2 h3
    obtain ⟨hu0, hu1, hv0, hv1⟩ := h3
    rw [eq_comm, decide_eq_true_eq]
    exact ⟨hu0, hu1, hv0, hv1, h2, h1⟩

/-- Witness for C2 on the line `0 0 2 0 1` (a node with `u = 2`, outside
the texture range, hence invalid). -/
theorem C2_node_validation_witness :
    parseNodeLine [numTok 0, numTok 0, numTok 2, numTok 0, numTok 1] =
      Except.ok
        { x := 0, y := 0, u := 2, v := 0, i := 1,
          valid := decide ((0 : ℚ) ≤ 2 ∧ (2 : ℚ) ≤ 1 ∧ (0 : ℚ) ≤ 0 ∧
            (0 : ℚ) ≤ 1 ∧ (0 : ℚ) ≤ 1 ∧ (1 : ℚ) ≤ 1) } ∧
    ∀ (ls : List FileLine) (ms : List MeshNode),
      parseNodes ls = Except.ok ms → ms.length = ls.length :=
  C2_node_validation [numTok 0, numTok 0, numTok 2, numTok 0, numTok 1]
    0 0 2 0 1 rfl

/-- C3 (code bug): the quad-validity test is not the same as being drawn.
In `draw_mesh`, when quad `(r, c)` is invalid the `continue` fires before
column `c`'s vertices are emitted, so the preceding drawable quad
`(r, c-1)` never receives its right-edge vertices and is not rendered.
In the 3x3 mesh whose only invalid node is index `5`, quads `(0,0)` and
`(1,0)` pass `is_quad_valid` (no corner touches node `5`), the quads
touching node `5` are correctly skipped — yet the emitted strips are
`[0,3]`, `[2]`, `[3,6]`, `[8]`, each with fewer than 3 vertices, so no
triangle and hence NO quad is drawn, against the claim that every quad
not touching the invalid node is drawn.  On the fully valid 3x3 mesh the
same machinery draws all four quads, so the under-drawing is specific to
an invalid neighbour. -/
theorem C3_strip_underdraw :
    is_quad_valid 3 mesh9b 0 0 = true ∧
    is_quad_valid 3 mesh9b 1 0 = true ∧
    is_quad_valid 3 mesh9b 0 1 = false ∧
    is_quad_valid 3 mesh9b 1 1 = false ∧
    draw_mesh 3 3 mesh9b = [[0, 3], [2], [3, 6], [8]] ∧
    quad_drawn 3 3 mesh9b 0 0 = false ∧
    quad_drawn 3 3 mesh9b 1 0 = false ∧
    draw_mesh 3 3 mesh9good = [[0, 3, 1, 4, 2, 5], [3, 6, 4, 7, 5, 8]] ∧
    quad_drawn 3 3 mesh9good 0 0 = true ∧
    quad_drawn 3 3 mesh9good 0 1 = true ∧
    quad_drawn 3 3 mesh9good 1 0 = true ∧
    quad_drawn 3 3 mesh9good 1 1 = true := by
  decide

/-- Inversion of a successful load: the file has a version line parsed as
an int, a two-field dimensions line parsed as ints `nx ny`, the engine's
`cols/rows` are reassigned to `nx/ny`, and the mesh is the node loop's
output over the first `nx * ny` node lines. -/
lemma loadMeshCore_ok_inv (e : Engine) (lines : List FileLine)
    (m : List MeshNode) (e2 : Engine)
    (h : loadMeshCore e lines = Except.ok (m, e2)) :
    ∃ l0 l1 rest nx ny, lines = l0 :: l1 :: rest ∧
      l1.toks.map Token.asInt = [some nx, some ny] ∧
      e2 = { e with cols := nx, rows := ny } ∧
      parseNodes (pyTake (nx * ny) rest) = Except.ok m := by
  unfold loadMeshCore at h
  split at h
  · exact Except.noConfusion h
  split at h
  case isFalse.h_2 => exact Except.noConfusion h
  rename_i lines0 l0 l1 rest hlen3
  split at h
  · exact Except.noConfusion h
  split at h
  · exact Except.noConfusion h
  split at h
  case h_2 => exact Except.noConfusion h
  rename_i nx ny heq
  split at h
  case h_2 => exact Except.noConfusion h
  rename_i mesh hp
  obtain ⟨hm, he⟩ := Prod.mk.inj (Except.ok.inj h)
  exact ⟨l0, l1, rest, nx, ny, rfl, heq, he.symm, hm ▸ hp⟩

/-- Inversion of a failing load: the engine state carried by the raised
exception is either the entry state (failures before the dimensions are
assigned) or the entry state with `cols/rows` replaced by the parsed file
dimensions (a parse failure in the node loop). -/
lemma loadMeshCore_error_inv (e : Engine) (lines : List FileLine)
    (e2 : Engine) (h : loadMeshCore e lines = Except.error e2) :
    e2 = e ∨ ∃ l0 l1 rest nx ny, lines = l0 :: l1 :: rest ∧
      l1.toks.map Token.asInt = [some nx, some ny] ∧
      e2 = { e with cols := nx, rows := ny } := by
  unfold loadMeshCore at h
  split at h
  · exact Or.inl (Except.error.inj h).symm
  split at h
  case isFalse.h_2 => exact Or.inl (Except.error.inj h).symm
  rename_i lines0 l0 l1 rest hlen3
  split at h
  · exact Or.inl (Except.error.inj h).symm
  split at h
  · exact Or.inl (Except.error.inj h).symm
  split at h
  case h_2 => exact Or.inl (Except.error.inj h).symm
  rename_i nx ny heq
  split at h
  case h_1 => exact Except.noConfusion h
  exact Or.inr ⟨l0, l1, rest, nx, ny, rfl, heq, (Except.error.inj h).symm⟩

/-- Full characterization of the engine state carried by a loader
exception, per failure class: a short file (fewer than 3 stripped lines),
a version line that `int()` rejects, a dimensions line without exactly two
fields, and a dimensions line whose fields do not both convert to ints all
raise BEFORE `self.cols/self.rows` are assigned, so the exception carries
the entry state unchanged; once the dimensions line has parsed as `nx ny`,
any later exception (the node loop) carries the entry state with
`cols/rows` reassigned to the file's `nx/ny`. -/
lemma loadMeshCore_error_state (e : Engine) (lines : List FileLine)
    (e2 : Engine) (h : loadMeshCore e lines = Except.error e2) :
    (lines.length < 3 → e2 = e) ∧
    (∀ l0 rest, lines = l0 :: rest → l0.asInt = none → e2 = e) ∧
    (∀ l0 l1 rest, lines = l0 :: l1 :: rest → l1.toks.length ≠ 2 →
      e2 = e) ∧
    (∀ l0 l1 rest, lines = l0 :: l1 :: rest →
      (∀ nx ny : ℤ, l1.toks.map Token.asInt ≠ [some nx, some ny]) →
      e2 = e) ∧
    (∀ (l0 l1 : FileLine) (rest : List FileLine) (nx ny : ℤ),
      lines = l0 :: l1 :: rest → ¬lines.length < 3 → l0.asInt ≠ none →
      l1.toks.map Token.asInt = [some nx, some ny] →
      e2 = { e with cols := nx, rows := ny }) := by
  unfold loadMeshCore at h
  split at h
  · rename_i hlt
    have he : e2 = e := (Except.error.inj h).symm
    exact ⟨fun _ => he, fun _ _ _ _ => he, fun _ _ _ _ _ => he,
      fun _ _ _ _ _ => he,
      fun l0 l1 rest nx ny hl hge hver hmap => absurd hlt hge⟩
  · split at h
    · rename_i lines0 l0 l1 rest hlen3
      split at h
      · rename_i xo hver
        have he : e2 = e := (Except.error.inj h).symm
        refine ⟨fun _ => he, fun _ _ _ _ => he, fun _ _ _ _ _ => he,
          fun _ _ _ _ _ => he, ?_⟩
        intro l0a l1a resta nx ny hl hge hvera hmap
        obtain ⟨h0, -⟩ := List.cons.inj hl
        exact absurd (h0 ▸ hver) hvera
      · rename_i xo vv hver
        split at h
        · rename_i htoks
          have he : e2 = e := (Except.error.inj h).symm
          refine ⟨fun _ => he, fun _ _ _ _ => he, fun _ _ _ _ _ => he,
            fun _ _ _ _ _ => he, ?_⟩
          intro l0a l1a resta nx ny hl hge hvera hmap
          obtain ⟨-, hl2⟩ := List.cons.inj hl
          obtain ⟨h1, -⟩ := List.cons.inj hl2
          have hm : l1.toks.map Token.asInt = [some nx, some ny] :=
            h1.symm ▸ hmap
          have h2len : l1.toks.length = 2 := by
            have := congrArg List.length hm
            simpa using this
          exact absurd h2len htoks
        · rename_i htoks
          split at h
          · rename_i xm nx0 ny0 heq
            split at h
            · exact Except.noConfusion h
            · rename_i u hp
              have he : e2 = { e with cols := nx0, rows := ny0 } :=
                (Except.error.inj h).symm
              refine ⟨?_, ?_, ?_, ?_, ?_⟩
              · intro hlt
                exact absurd hlt hlen3
              · intro l0a resta hl hvera
                obtain ⟨h0, -⟩ := List.cons.inj hl
                have h2 : l0.asInt = none := h0 ▸ hvera
                rw [hver] at h2
                exact Option.noConfusion h2
              · intro l0a l1a resta hl htoksa
                obtain ⟨-, hl2⟩ := List.cons.inj hl
                obtain ⟨h1, -⟩ := List.cons.inj hl2
                have hm : l1a.toks.map Token.asInt = [some nx0, some ny0] :=
                  h1 ▸ heq
                have h2len : l1a.toks.length = 2 := by
                  have := congrArg List.length hm
                  simpa using this
                exact absurd h2len htoksa
              · intro l0a l1a resta hl hmapne
                obtain ⟨-, hl2⟩ := List.cons.inj hl
                obtain ⟨h1, -⟩ := List.cons.inj hl2
                exact absurd (h1 ▸ heq) (hmapne nx0 ny0)
              · intro l0a l1a resta nx ny hl hge hvera hmap
                obtain ⟨-, hl2⟩ := List.cons.inj hl
                obtain ⟨h1, -⟩ := List.cons.inj hl2
                have hm : l1.toks.map Token.asInt = [some nx, some ny] :=
                  h1.symm ▸ hmap
                rw [heq] at hm
                simp only [List.cons.injEq, Option.some.injEq,
                  and_true] at hm
                rw [he, hm.1, hm.2]
          · rename_i nomat
            have he : e2 = e := (Except.error.inj h).symm
            refine ⟨fun _ => he, fun _ _ _ _ => he, fun _ _ _ _ _ => he,
              fun _ _ _ _ _ => he, ?_⟩
            intro l0a l1a resta nx ny hl hge hvera hmap
            obtain ⟨-, hl2⟩ := List.cons.inj hl
            obtain ⟨h1, -⟩ := List.cons.inj hl2
            have hm : l1.toks.map Token.asInt = [some nx, some ny] :=
              h1.symm ▸ hmap
            exact absurd hm (fun hh => nomat nx ny hh)
    · rename_i nocc
      have he : e2 = e := (Except.error.inj h).symm
      exact ⟨fun _ => he, fun _ _ _ _ => he, fun _ _ _ _ _ => he,
        fun _ _ _ _ _ => he,
        fun l0 l1 rest nx ny hl hge hver hmap =>
          absurd hl (fun hh => nocc l0 l1 rest hh)⟩

/-- C4 counterexample: loading `fileC4` (header `2 2`, one node line)
succeeds with a mesh of length `1`, not the declared `nx * ny = 4`; no
placeholder nodes are appended for the missing lines, so the claimed
invariant `length(mesh) = rows * cols` fails. -/
theorem C4_counterexample :
    (load_mesh engine0 (some fileC4)).map
        (fun p => (p.1.length, p.2.cols * p.2.rows)) =
      Except.ok ((1 : ℕ), (4 : ℤ)) ∧ (1 : ℕ) ≠ (4 : ℤ).toNat :=
  ⟨rfl, by decide⟩

/-- C4 (amended): a load whose header and node lines parse returns one
node per supplied node line up to the declared count — the mesh length is
`min(nx*ny, number of node lines)`, with no placeholder padding for
missing lines. -/
theorem C4_truncated_load (e : Engine) (lines : List FileLine)
    (m : List MeshNode) (e2 : Engine)
    (h : loadMeshCore e lines = Except.ok (m, e2)) :
    m.length = (pyTake (e2.cols * e2.rows) (lines.drop 2)).length ∧
    (0 ≤ e2.cols * e2.rows →
      m.length = min (e2.cols * e2.rows).toNat (lines.drop 2).length) := by
  obtain ⟨l0, l1, rest, nx, ny, hl, hdim, he2, hp⟩ :=
    loadMeshCore_ok_inv e lines m e2 h
  subst hl
  subst he2
  have hlen := parseNodes_length _ _ hp
  constructor
  · exact hlen
  · intro hnn
    rw [hlen]
    show (pyTake (nx * ny) rest).length = _
    unfold pyTake
    rw [if_neg (not_lt.mpr hnn)]
    exact List.length_take ..

/-- Witness for C4 (amended) on the truncated file `fileC4`. -/
theorem C4_truncated_load_witness :
    ([vNode].length = (pyTake ((2 : ℤ) * 2) (fileC4.drop 2)).length ∧
      (0 ≤ (2 : ℤ) * 2 →
        [vNode].length = min ((2 : ℤ) * 2).toNat (fileC4.drop 2).length)) :=
  C4_truncated_load engine0 fileC4 [vNode]
    { rows := 2, cols := 2, width := 1920, height := 1080 } rfl

/-- C5 counterexample: loading `fileC5` (valid header `5 5`, then a node
line that fails float conversion) falls back to an identity mesh of the
FILE's dimensions, `25` nodes, and leaves the engine with
`rows = cols = 5` — not the pre-load `10 x 10` configuration the claim
requires. -/
theorem C5_counterexample :
    (load_mesh engine0 (some fileC5)).map
        (fun p => (p.1.length, p.2.rows, p.2.cols)) =
      Except.ok ((25 : ℕ), (5 : ℤ), (5 : ℤ)) ∧
    ¬((25 : ℕ) = 10 * 10 ∧ (5 : ℤ) = 10) :=
  ⟨rfl, by decide⟩

/-- C5 (amended): a failing load falls back to the identity mesh built
from the engine state held at the moment of failure, keeping the pre-load
width/height.  For every failure raised before the dimensions are
assigned — a missing file, a file with fewer than 3 stripped lines, a
version line that `int()` rejects, a dimensions line without exactly two
fields, or dimension fields that do not both convert to ints — that state
is the engine's pre-load state, unchanged; but when the dimensions line
has parsed as `nx ny` before the exception (a node-loop parse failure),
`cols/rows` have been reassigned to the file's `nx/ny`, the fallback uses
those, and the reassignment persists on the engine state. -/
theorem C5_fallback_state (e : Engine) (lines : List FileLine) (e2 : Engine)
    (h : loadMeshCore e lines = Except.error e2) :
    load_mesh e none =
        (create_identity_mesh e.rows e.cols e.width e.height).map
          (fun m => (m, e)) ∧
    load_mesh e (some lines) =
        (create_identity_mesh e2.rows e2.cols e2.width e2.height).map
          (fun m => (m, e2)) ∧
    e2.width = e.width ∧ e2.height = e.height ∧
    (lines.length < 3 → e2 = e) ∧
    (∀ l0 rest, lines = l0 :: rest → l0.asInt = none → e2 = e) ∧
    (∀ l0 l1 rest, lines = l0 :: l1 :: rest → l1.toks.length ≠ 2 →
      e2 = e) ∧
    (∀ l0 l1 rest, lines = l0 :: l1 :: rest →
      (∀ nx ny : ℤ, l1.toks.map Token.asInt ≠ [some nx, some ny]) →
      e2 = e) ∧
    (∀ (l0 l1 : FileLine) (rest : List FileLine) (nx ny : ℤ),
      lines = l0 :: l1 :: rest → ¬lines.length < 3 → l0.asInt ≠ none →
      l1.toks.map Token.asInt = [some nx, some ny] →
      e2 = { e with cols := nx, rows := ny }) ∧
    (e2 = e ∨ ∃ l0 l1 rest nx ny, lines = l0 :: l1 :: rest ∧
      l1.toks.map Token.asInt = [some nx, some ny] ∧
      e2 = { e with cols := nx, rows := ny }) := by
  obtain ⟨hshort, hbadver, hbaddims, hbadints, hdims⟩ :=
    loadMeshCore_error_state e lines e2 h
  have hinv := loadMeshCore_error_inv e lines e2 h
  refine ⟨rfl, ?_, ?_, ?_, hshort, hbadver, hbaddims, hbadints, hdims, hinv⟩
  · simp only [load_mesh]
    rw [h]
  · rcases hinv with rfl | ⟨l0, l1, rest, nx, ny, hl, hdim, he2⟩
    · rfl
    · rw [he2]
  · rcases hinv with rfl | ⟨l0, l1, rest, nx, ny, hl, hdim, he2⟩
    · rfl
    · rw [he2]

/-- Witness for C5 (amended) at `fileC5`: the failure state is the
pre-load engine with `cols/rows` reassigned to the file's `5 5`. -/
theorem C5_fallback_state_witness :
    load_mesh engine0 none =
        (create_identity_mesh engine0.rows engine0.cols engine0.width
          engine0.height).map (fun m => (m, engine0)) ∧
    load_mesh engine0 (some fileC5) =
        (create_identity_mesh engine5.rows engine5.cols engine5.width
          engine5.height).map (fun m => (m, engine5)) ∧
    engine5.width = engine0.width ∧ engine5.height = engine0.height ∧
    (fileC5.length < 3 → engine5 = engine0) ∧
    (∀ l0 rest, fileC5 = l0 :: rest → l0.asInt = none →
      engine5 = engine0) ∧
    (∀ l0 l1 rest, fileC5 = l0 :: l1 :: rest → l1.toks.length ≠ 2 →
      engine5 = engine0) ∧
    (∀ l0 l1 rest, fileC5 = l0 :: l1 :: rest →
      (∀ nx ny : ℤ, l1.toks.map Token.asInt ≠ [some nx, some ny]) →
      engine5 = engine0) ∧
    (∀ (l0 l1 : FileLine) (rest : List FileLine) (nx ny : ℤ),
      fileC5 = l0 :: l1 :: rest → ¬fileC5.length < 3 → l0.asInt ≠ none →
      l1.toks.map Token.asInt = [some nx, some ny] →
      engine5 = { engine0 with cols := nx, rows := ny }) ∧
    (engine5 = engine0 ∨
      ∃ l0 l1 rest nx ny, fileC5 = l0 :: l1 :: rest ∧
        l1.toks.map Token.asInt = [some nx, some ny] ∧
        engine5 = { engine0 with cols := nx, rows := ny }) :=
  C5_fallback_state engine0 fileC5 engine5 rfl

/-- C6 at the failing input: loading `fileC6` (degenerate declared
dimensions `1 1`, then a node-line parse failure) makes the fallback
identity-mesh generation divide by `cols - 1 = 0`; the resulting
`ZeroDivisionError` escapes `load_mesh` instead of a mesh being returned.
Loading a missing file with the default `10 x 10` engine, by contrast,
does return the 100-node identity mesh. -/
theorem C6_exception_escape :
    load_mesh engine0 (some fileC6) = Except.error () ∧
    (load_mesh engine0 none).map (fun p => p.1.length) =
      Except.ok (100 : ℕ) :=
  ⟨rfl, rfl⟩

/-- C7: barrel distortion keeps the mesh length; every valid node gets
`x = un * factor` and `y = vn * factor` with `un = u*2-1`, `vn = v*2-1`
and `factor = 1 + strength * (un² + vn²)`; `u`, `v`, `intensity` and
`valid` are never modified, and an invalid node is left entirely
untouched. -/
theorem C7_barrel_distortion (s : ℚ) (mesh : List MeshNode) :
    (apply_barrel_distortion s mesh).length = mesh.length ∧
    ∀ (k : ℕ) (n : MeshNode), mesh[k]? = some n →
      ∃ n2, (apply_barrel_distortion s mesh)[k]? = some n2 ∧
        n2.u = n.u ∧ n2.v = n.v ∧ n2.i = n.i ∧ n2.valid = n.valid ∧
        (n.valid = true →
          n2.x = (n.u * 2 - 1) *
              (1 + s * ((n.u * 2 - 1) ^ 2 + (n.v * 2 - 1) ^ 2)) ∧
          n2.y = (n.v * 2 - 1) *
              (1 + s * ((n.u * 2 - 1) ^ 2 + (n.v * 2 - 1) ^ 2))) ∧
        (n.valid = false → n2 = n) := by
  constructor
  · simp [apply_barrel_distortion]
  · intro k n hk
    have hmap : (apply_barrel_distortion s mesh)[k]? = some
        (if n.valid then
          { n with
            x := (n.u * 2 - 1) *
              (1 + s * ((n.u * 2 - 1) ^ 2 + (n.v * 2 - 1) ^ 2))
            y := (n.v * 2 - 1) *
              (1 + s * ((n.u * 2 - 1) ^ 2 + (n.v * 2 - 1) ^ 2)) }
        else n) := by
      unfold apply_barrel_distortion
      rw [List.getElem?_map, hk]
      rfl
    cases hv : n.valid
    · refine ⟨n, ?_, rfl, rfl, rfl, hv,
        fun hcontra => Bool.noConfusion hcontra, fun _ => rfl⟩
      rw [hmap, hv]
      rfl
    · refine ⟨{ n with
          x := (n.u * 2 - 1) *
            (1 + s * ((n.u * 2 - 1) ^ 2 + (n.v * 2 - 1) ^ 2))
          y := (n.v * 2 - 1) *
            (1 + s * ((n.u * 2 - 1) ^ 2 + (n.v * 2 - 1) ^ 2)) },
          ?_, rfl, rfl, rfl, hv, fun _ => ⟨rfl, rfl⟩,
          fun hcontra => Bool.noConfusion hcontra⟩
      rw [hmap, hv]
      rfl

/-- Witness for C7 on the one-node mesh `[vNode]` at strength `1`. -/
theorem C7_barrel_distortion_witness :
    ∃ n2, (apply_barrel_distortion 1 [vNode])[0]? = some n2 ∧
      n2.u = vNode.u ∧ n2.v = vNode.v ∧ n2.i = vNode.i ∧
      n2.valid = vNode.valid ∧
      (vNode.valid = true →
        n2.x = (vNode.u * 2 - 1) *
            (1 + 1 * ((vNode.u * 2 - 1) ^ 2 + (vNode.v * 2 - 1) ^ 2)) ∧
        n2.y = (vNode.v * 2 - 1) *
            (1 + 1 * ((vNode.u * 2 - 1) ^ 2 + (vNode.v * 2 - 1) ^ 2))) ∧
      (vNode.valid = false → n2 = vNode) :=
  (C7_barrel_distortion 1 [vNode]).2 0 vNode rfl

/-- C8: pincushion distortion at strength `s` is exactly barrel distortion
at strength `-s`, mesh for mesh. -/
theorem C8_pincushion_is_negated_barrel (s : ℚ) (mesh : List MeshNode) :
    apply_pincushion_distortion s mesh = apply_barrel_distortion (-s) mesh :=
  rfl

/-- C9: barrel distortion is idempotent — applying it twice at the same
strength equals applying it once, because the new `x, y` are recomputed
from `u, v`, which the transform never modifies; in particular it does not
compose additively with a prior application. -/
theorem C9_barrel_idempotent (s : ℚ) (mesh : List MeshNode) :
    apply_barrel_distortion s (apply_barrel_distortion s mesh) =
      apply_barrel_distortion s mesh := by
  unfold apply_barrel_distortion
  rw [List.map_map]
  refine List.map_congr_left fun node hmem => ?_
  cases hv : node.valid
  · simp [Function.comp, hv]
  · simp [Function.comp, hv]

/-- C10: a node line with more than five fields whose first five all
convert to floats is accepted — parsing it is the same as parsing just its
first five fields, and it produces a node built from those five values;
the placeholder-invalid-node result arises exactly for lines with fewer
than five fields. -/
theorem C10_extra_fields_ignored (parts : List Token) (x y u v inten : ℚ)
    (hlen : 5 < parts.length) (h : floats5 parts = some (x, y, u, v, inten)) :
    parseNodeLine parts = parseNodeLine (parts.take 5) ∧
    (∃ n, parseNodeLine parts = Except.ok n ∧
      n.x = x ∧ n.y = y ∧ n.u = u ∧ n.v = v ∧ n.i = inten) ∧
    (∀ ps : List Token, parseNodeLine ps = Except.ok zeroNode ↔
      ps.length < 5) := by
  rcases parts with - | ⟨p0, - | ⟨p1, - | ⟨p2, - | ⟨p3, - | ⟨p4, rest⟩⟩⟩⟩⟩
  · exact Option.noConfusion h
  · exact Option.noConfusion h
  · exact Option.noConfusion h
  · exact Option.noConfusion h
  · exact Option.noConfusion h
  refine ⟨?_, ?_, ?_⟩
  · unfold parseNodeLine
    rw [if_pos (by simp only [List.length_cons]; omega),
      if_pos (by simp [List.length_take])]
    have htake : floats5 ((p0 :: p1 :: p2 :: p3 :: p4 :: rest).take 5) =
        floats5 (p0 :: p1 :: p2 :: p3 :: p4 :: rest) := rfl
    rw [htake]
  · unfold parseNodeLine
    rw [if_pos (by simp only [List.length_cons]; omega), h]
    exact ⟨_, rfl, rfl, rfl, rfl, rfl, rfl⟩
  · intro ps
    constructor
    · intro hok
      by_contra hge
      push_neg at hge
      unfold parseNodeLine at hok
      rw [if_pos hge] at hok
      cases hf : floats5 ps with
      | none => rw [hf] at hok; exact Except.noConfusion hok
      | some t =>
        obtain ⟨a, b, c, d, i0⟩ := t
        rw [hf] at hok
        simp only [Except.ok.injEq, MeshNode.mk.injEq, zeroNode] at hok
        obtain ⟨-, -, hc, hd, hi0, hval⟩ := hok
        subst hc hd hi0
        norm_num at hval
    · intro hlt
      unfold parseNodeLine
      rw [if_neg (by omega)]

/-- Witness for C10 on the six-field line `0 0 0 0 1 7`. -/
theorem C10_extra_fields_ignored_witness :
    parseNodeLine [numTok 0, numTok 0, numTok 0, numTok 0, numTok 1,
        numTok 7] =
      parseNodeLine ([numTok 0, numTok 0, numTok 0, numTok 0, numTok 1,
        numTok 7].take 5) ∧
    (∃ n, parseNodeLine [numTok 0, numTok 0, numTok 0, numTok 0, numTok 1,
        numTok 7] = Except.ok n ∧
      n.x = 0 ∧ n.y = 0 ∧ n.u = 0 ∧ n.v = 0 ∧ n.i = 1) ∧
    (∀ ps : List Token, parseNodeLine ps = Except.ok zeroNode ↔
      ps.length < 5) :=
  C10_extra_fields_ignored
    [numTok 0, numTok 0, numTok 0, numTok 0, numTok 1, numTok 7]
    0 0 0 0 1 (by simp [List.length_cons]) rfl

end VideoWarper
